import Mathlib

/-
Verification of the async-wormhole repository:
a shallow embedding of the switcheroo generator, the AsyncWormhole future
adapter, the stack allocators and the stack pool, with theorems checking the
specification's claims against the embedded code.
-/

namespace AW

/-!
## Switcheroo generator (src/switcheroo/src/lib.rs)

A coroutine body is embedded as a step machine: `σ` is the contents of the
parked coroutine stack (everything the suspended activation needs in order to
continue), and one `step` runs the user closure from its current suspension
point with the input delivered by `resume` until the closure either calls
`yielder.suspend(value)` again (constructor `yield`, carrying the value passed
to `suspend` and the new parked state), returns (`ret`), or panics with a
payload (`panic`).  This mirrors the runtime fact that between two context
switches the closure runs uninterrupted on its own stack.
-/

/-- Result of running one activation segment of the user closure. -/
inductive SegResult (σ Out P : Type) where
  | yield : Out → σ → SegResult σ Out P
  | ret : SegResult σ Out P
  | panic : P → SegResult σ Out P
deriving DecidableEq

/-- The tagged value transported across a context switch, from the source enum
`GeneratorOutput`.  A panic payload is `Box<dyn Any>`; it is embedded as
`Option P`, with `none` standing for the `Box::new(())` payload raised by the
`Yielder` on the drop-unwind path and `some p` for a payload of a user panic. -/
inductive GeneratorOutput (Out P : Type) where
  | value : Out → GeneratorOutput Out P
  | finished : GeneratorOutput Out P
  | panic : Option P → GeneratorOutput Out P
deriving DecidableEq

/-- The source `Generator` struct: a `started` bit and an optional stack
pointer (`none` once the coroutine finished).  The parked stack contents are
the machine state `σ`; the closure (which in the source lives on that stack)
is the `step` field.  The owned `Stack` allocation is not part of the
control-flow model. -/
structure Generator (σ In Out P : Type) where
  started : Bool
  stack_ptr : Option σ
  step : σ → In → SegResult σ Out P

/-- `Generator::new`: parks the closure on the fresh stack (initial state
`s0`); the closure has not run yet (`started = false`). -/
def Generator.new (step : σ → In → SegResult σ Out P) (s0 : σ) :
    Generator σ In Out P :=
  { started := false, stack_ptr := some s0, step := step }

/-- One activation of the parked coroutine when it is swapped in with data
pointer `d`.  `some i` models a (necessarily nonzero) pointer to input `i`;
`none` models the sentinel data pointer `0` sent by `Drop`.  On `some i` the
user closure continues (`generator_wrapper` / `suspend_` read the input and
run user code to its next stop; a returned closure yields `Finished`, a
panicking one is caught by `catch_unwind` and yields `Panic(payload)`).  On
`none` the `Yielder` calls `resume_unwind(Box::new(()))` before reading any
input: the activation unwinds (running the destructors of objects it owns,
never invoking the user continuation), `catch_unwind` catches the unwind at
the coroutine boundary and `Panic` with that payload is yielded back.
Returns the transported `GeneratorOutput` and the new stack pointer. -/
def coActivate (step : σ → In → SegResult σ Out P) (s : σ) :
    Option In → GeneratorOutput Out P × Option σ
  | some i =>
    match step s i with
    | .yield o s2 => (.value o, some s2)
    | .ret => (.finished, none)
    | .panic p => (.panic (some p), none)
  | none => (.panic none, none)

/-- `Generator::finished`: true when the stack pointer was cleared. -/
def Generator.finished (g : Generator σ In Out P) : Bool :=
  g.stack_ptr.isNone

/-- `Generator::resume`.  The result of the call is `.ok (some v)` when the
coroutine suspended with value `v`, `.ok none` when it had already finished or
finished during this activation, and `.error p` when the activation panicked:
the source re-raises the transported payload on the resumer's stack with
`resume_unwind(panic)` after clearing `stack_ptr`. -/
def Generator.resume (g : Generator σ In Out P) (i : In) :
    Except (Option P) (Option Out) × Generator σ In Out P :=
  match g.stack_ptr with
  | none => (.ok none, g)
  | some s =>
    match coActivate g.step s (some i) with
    | (.value v, sp2) => (.ok (some v), { g with started := true, stack_ptr := sp2 })
    | (.finished, _) => (.ok none, { g with started := true, stack_ptr := none })
    | (.panic p, _) => (.error p, { g with started := true, stack_ptr := none })

/-- The data arguments of the `arch::swap` calls performed by one `resume`:
none when the generator is finished (early return), and exactly one switch
passing a pointer to the input otherwise. -/
def Generator.resumeSwapArgs (g : Generator σ In Out P) (i : In) :
    List (Option In) :=
  match g.stack_ptr with
  | none => []
  | some _ => [some i]

/-- The data arguments of the `arch::swap` calls performed by `Drop for
Generator`: exactly one switch with data pointer `0` (embedded `none`) when
the generator is started but not finished, and none otherwise. -/
def Generator.dropSwapArgs (g : Generator σ In Out P) : List (Option In) :=
  if g.started && !g.finished then [none] else []

/-- The `GeneratorOutput` read back (and then discarded, never re-raised) by
`Drop for Generator`, when it performs its final swap. -/
def Generator.dropOutcome (g : Generator σ In Out P) :
    Option (GeneratorOutput Out P) :=
  if g.started && !g.finished then
    match g.stack_ptr with
    | some s => some (coActivate g.step s none).1
    | none => none
  else none

/-- The add-one closure from the crate documentation and the basic-switch
scenario: `loop { if input == 0 break; input = yielder.suspend(input + 1) }`.
Its only per-activation state is the loop position, so `σ = Unit`. -/
def addOneStep : Unit → Nat → SegResult Unit Nat Nat :=
  fun _ input => if input = 0 then .ret else .yield (input + 1) ()

/-- The add-one generator, freshly constructed. -/
def addOneGen : Generator Unit Nat Nat Nat :=
  Generator.new addOneStep ()

/-- C1: resume on a finished generator returns `None` without a context
switch; otherwise resume performs one switch passing the input and returns
`Some v` when the coroutine's next suspend produced `v`, or `None` when the
coroutine returned during this activation.  For the add-one generator:
resume 2 = some 3, resume 127 = some 128, resume 0 = none, and every later
resume returns none. -/
theorem c1_resume_contract :
    (∀ (σ In Out P : Type) (g : Generator σ In Out P) (i : In),
        g.stack_ptr = none →
        g.resume i = (.ok none, g) ∧ g.resumeSwapArgs i = []) ∧
    (∀ (σ In Out P : Type) (g : Generator σ In Out P) (s : σ) (i : In),
        g.stack_ptr = some s →
        g.resumeSwapArgs i = [some i] ∧
        (∀ o s2, g.step s i = .yield o s2 → (g.resume i).1 = .ok (some o)) ∧
        (g.step s i = .ret → (g.resume i).1 = .ok none)) ∧
    ((addOneGen.resume 2).1 = .ok (some 3) ∧
      (((addOneGen.resume 2).2.resume 127).1 = .ok (some 128) ∧
        ((((addOneGen.resume 2).2.resume 127).2.resume 0).1 = .ok none ∧
          ∀ j : Nat,
            (((((addOneGen.resume 2).2.resume 127).2.resume 0).2.resume j).1 =
              Except.ok none)))) := by
  refine ⟨?_, ?_, ?_⟩
  · intro σ In Out P g i h
    simp [Generator.resume, Generator.resumeSwapArgs, h]
  · intro σ In Out P g s i h
    refine ⟨by simp [Generator.resumeSwapArgs, h], ?_, ?_⟩
    · intro o s2 hstep
      simp [Generator.resume, h, coActivate, hstep]
    · intro hstep
      simp [Generator.resume, h, coActivate, hstep]
  · refine ⟨rfl, rfl, rfl, ?_⟩
    intro j
    rfl

/-- Witness for C1 at concrete inputs: a finished add-one generator resumed
with 5, and the fresh add-one generator whose first step at input 2 yields 3. -/
theorem c1_resume_contract_witness :
    (({ started := true, stack_ptr := none, step := addOneStep } :
        Generator Unit Nat Nat Nat).resume 5 =
      (.ok none, { started := true, stack_ptr := none, step := addOneStep }) ∧
      ({ started := true, stack_ptr := none, step := addOneStep } :
        Generator Unit Nat Nat Nat).resumeSwapArgs 5 = []) ∧
    (addOneGen.resumeSwapArgs 2 = [some 2] ∧
      (addOneGen.resume 2).1 = .ok (some 3) ∧
      (((addOneGen.resume 2).2.resume 127).2.resume 0).1 = Except.ok none) := by
  have h := c1_resume_contract
  refine ⟨h.1 Unit Nat Nat Nat _ 5 rfl, (h.2.1 Unit Nat Nat Nat addOneGen () 2 rfl).1,
    (h.2.1 Unit Nat Nat Nat addOneGen () 2 rfl).2.1 3 () rfl, h.2.2.2.2.1⟩

/-- A closure that panics immediately with payload 7 (as in
src/examples/panic.rs, where the closure panics after suspending). -/
def panicStep : Unit → Nat → SegResult Unit Nat Nat :=
  fun _ _ => .panic 7

/-- C2: a panic of the closure is caught at the coroutine boundary (the
activation result is the by-value `Panic(payload)` variant, never an unwind
across the switch), re-raised by `resume` on the resumer's stack exactly once
with the original payload; after a `Panic` or a `Finished` the generator is
terminal and every subsequent `resume` returns `None`. -/
theorem c2_panic_propagation :
    ∀ (σ In Out P : Type) (g : Generator σ In Out P) (s : σ) (i : In),
      g.stack_ptr = some s →
      (∀ p, g.step s i = .panic p →
          coActivate g.step s (some i) = (.panic (some p), none) ∧
          g.resume i =
            (.error (some p), { g with started := true, stack_ptr := none }) ∧
          ∀ j, ({ g with started := true, stack_ptr := none } :
              Generator σ In Out P).resume j =
            (.ok none, { g with started := true, stack_ptr := none })) ∧
      (g.step s i = .ret →
          g.resume i =
            (.ok none, { g with started := true, stack_ptr := none }) ∧
          ∀ j, ({ g with started := true, stack_ptr := none } :
              Generator σ In Out P).resume j =
            (.ok none, { g with started := true, stack_ptr := none })) := by
  intro σ In Out P g s i h
  constructor
  · intro p hstep
    refine ⟨by simp [coActivate, hstep], by simp [Generator.resume, h, coActivate, hstep], ?_⟩
    intro j
    simp [Generator.resume]
  · intro hstep
    refine ⟨by simp [Generator.resume, h, coActivate, hstep], ?_⟩
    intro j
    simp [Generator.resume]

/-- Witness for C2: the immediately panicking closure, resumed once with
input 0, re-raises payload 7 and is terminal afterwards. -/
theorem c2_panic_propagation_witness :
    coActivate panicStep () (some 0) = (.panic (some 7), none) ∧
    (Generator.new panicStep ()).resume 0 =
      (.error (some 7), { started := true, stack_ptr := none, step := panicStep }) ∧
    ({ started := true, stack_ptr := none, step := panicStep } :
        Generator Unit Nat Nat Nat).resume 3 =
      (.ok none, { started := true, stack_ptr := none, step := panicStep }) := by
  have h :=
    (c2_panic_propagation Unit Nat Nat Nat (Generator.new panicStep ()) () 0 rfl).1 7 rfl
  exact ⟨h.1, h.2.1, h.2.2 3⟩

/-- C3: dropping a started, unfinished generator performs exactly one final
swap with data pointer 0 (the sentinel); the coroutine side receiving the
sentinel initiates a panic (the in-flight activation unwinds, running the
destructors it owns, without ever invoking the user continuation — the
activation output is independent of `step`), and the `Panic` variant yielded
back is merely read by `Drop` and discarded.  Dropping a generator that is
not started, or that is finished, performs no context switch. -/
theorem c3_drop_unwind :
    ∀ (σ In Out P : Type) (g : Generator σ In Out P),
      (∀ s, g.started = true → g.stack_ptr = some s →
          g.dropSwapArgs = [(none : Option In)] ∧
          coActivate g.step s none = (.panic none, none) ∧
          g.dropOutcome = some (.panic none)) ∧
      (g.started = false → g.dropSwapArgs = [] ∧ g.dropOutcome = none) ∧
      (g.stack_ptr = none → g.dropSwapArgs = [] ∧ g.dropOutcome = none) := by
  intro σ In Out P g
  refine ⟨?_, ?_, ?_⟩
  · intro s hst hsp
    refine ⟨?_, rfl, ?_⟩
    · simp [Generator.dropSwapArgs, Generator.finished, hst, hsp]
    · simp [Generator.dropOutcome, Generator.finished, hst, hsp, coActivate]
  · intro hst
    simp [Generator.dropSwapArgs, Generator.dropOutcome, hst]
  · intro hsp
    simp [Generator.dropSwapArgs, Generator.dropOutcome, Generator.finished, hsp]

/-- Witness for C3: a started add-one generator parked at a yield is unwound
by one sentinel swap on drop; the fresh (not started) one is not. -/
theorem c3_drop_unwind_witness :
    (({ started := true, stack_ptr := some (), step := addOneStep } :
        Generator Unit Nat Nat Nat).dropSwapArgs = [none] ∧
      coActivate addOneStep () none = (.panic none, none) ∧
      ({ started := true, stack_ptr := some (), step := addOneStep } :
        Generator Unit Nat Nat Nat).dropOutcome = some (.panic none)) ∧
    (addOneGen.dropSwapArgs = [] ∧ addOneGen.dropOutcome = none) := by
  exact ⟨(c3_drop_unwind Unit Nat Nat Nat
      { started := true, stack_ptr := some (), step := addOneStep }).1 () rfl rfl,
    (c3_drop_unwind Unit Nat Nat Nat addOneGen).2.1 rfl⟩

/-!
## AsyncWormhole future adapter (src/src/lib.rs)

The wormhole generator has `Input = Waker` and `Output = Option Output`; the
closure passed to `Generator::new` runs the user function and then suspends
`Some(result)`.  Thread-local slots are `(reference, value)` pairs; the
current worker thread's thread-local storage is a map from references to
values, threaded through `poll`.
-/

/-- The standard poll result. -/
inductive Poll (α : Type) where
  | pending : Poll α
  | ready : α → Poll α
deriving DecidableEq

/-- One preserved thread-local slot: the `LocalKey` reference and the
remembered value (source struct `ThreadLocal`). -/
structure ThreadLocal (K V : Type) where
  reference : K
  value : V
deriving DecidableEq

/-- The current worker thread's thread-local storage. -/
def TlsMap (K V : Type) := K → V

/-- Writing one thread-local slot (`v.set(...)`). -/
def tlsSet [DecidableEq K] (m : TlsMap K V) (k : K) (v : V) : TlsMap K V :=
  fun k2 => if k2 = k then v else m k2

/-- The source `AsyncWormhole` struct: the generator plus the preserved
thread-local slots. -/
structure AsyncWormhole (σ W Out P K V : Type) where
  generator : Generator σ W (Option Out) P
  preserved_thread_locals : List (ThreadLocal K V)

/-- The worker map after the pre-poll loop: each preserved slot's remembered
value is written into the current worker's slot, in list order. -/
def prePollMap [DecidableEq K] (tls : List (ThreadLocal K V)) (m : TlsMap K V) :
    TlsMap K V :=
  tls.foldl (fun mm t => tlsSet mm t.reference t.value) m

/-- The post-poll-pending loop: each slot's current worker value is read back
into the remembered cell (`tls.value = v.get()`). -/
def postPollSlots (tls : List (ThreadLocal K V)) (m1 : TlsMap K V) :
    List (ThreadLocal K V) :=
  tls.map (fun t => { t with value := m1 t.reference })

/-- `<AsyncWormhole as Future>::poll`: pre-poll writes the remembered values
into the worker's slots; the generator is resumed with (a clone of) the
current waker; `None` and `Some(None)` results give `Poll::Pending` after the
post-poll-pending loop reads the worker's current values back into the
remembered cells; any other `Some(out)` gives `Poll::Ready(out)`; a panic
re-raised by `resume` propagates out of `poll` (the post-poll loop is
skipped).  Returns (result, new wormhole, worker map after the call). -/
def AsyncWormhole.poll [DecidableEq K] (w : AsyncWormhole σ W Out P K V)
    (waker : W) (m : TlsMap K V) :
    Except (Option P) (Poll (Option Out)) × AsyncWormhole σ W Out P K V × TlsMap K V :=
  let m1 := prePollMap w.preserved_thread_locals m
  match w.generator.resume waker with
  | (.error p, g2) => (.error p, { w with generator := g2 }, m1)
  | (.ok none, g2) =>
    (.ok .pending,
      { generator := g2,
        preserved_thread_locals := postPollSlots w.preserved_thread_locals m1 },
      m1)
  | (.ok (some none), g2) =>
    (.ok .pending,
      { generator := g2,
        preserved_thread_locals := postPollSlots w.preserved_thread_locals m1 },
      m1)
  | (.ok (some out), g2) => (.ok (.ready out), { w with generator := g2 }, m1)

/-- Wormhole and worker map after `n` polls (each with waker `waker`). -/
def pollIterState [DecidableEq K] (w : AsyncWormhole σ W Out P K V) (waker : W)
    (m : TlsMap K V) : Nat → AsyncWormhole σ W Out P K V × TlsMap K V
  | 0 => (w, m)
  | n + 1 =>
    let s := pollIterState w waker m n
    ((s.1.poll waker s.2).2.1, (s.1.poll waker s.2).2.2)

/-- Result of the (n+1)-st poll (0-indexed: `pollNth w waker m 0` is the
first poll). -/
def pollNth [DecidableEq K] (w : AsyncWormhole σ W Out P K V) (waker : W)
    (m : TlsMap K V) (n : Nat) : Except (Option P) (Poll (Option Out)) :=
  ((pollIterState w waker m n).1.poll waker (pollIterState w waker m n).2).1

/-- The state machine of the closure `|yielder, waker| { let ay =
AsyncYielder::new(yielder, waker); yielder.suspend(Some(f(ay))) }` that
`AsyncWormhole::new_with_tls` parks on the stack: while the user function `f`
runs (`run t`), each activation either suspends `None` (an `async_suspend` on
a pending future) or, when `f` returns `v`, suspends `Some v` and parks right
after that outer suspend (`afterSuspend`); resumed once more, the closure
returns and the wrapper reports `Finished`. -/
inductive WormState (τ : Type) where
  | run : τ → WormState τ
  | afterSuspend : WormState τ
deriving DecidableEq

/-- One activation of the wormhole closure, given the per-activation behavior
`fstep` of the user function (`inl t2`: suspended inside `async_suspend` with
updated state; `inr v`: returned value `v`). -/
def wormStep (fstep : τ → W → τ ⊕ Out) :
    WormState τ → W → SegResult (WormState τ) (Option Out) P
  | .run t, w =>
    match fstep t w with
    | .inl t2 => .yield none (.run t2)
    | .inr v => .yield (some v) .afterSuspend
  | .afterSuspend, _ => .ret

/-- A future that returns `Pending` exactly `k` more times (counting down its
state) before resolving to `v`; the waker is ignored. -/
def countdownFut (v : R) : Nat → W → Poll R × Nat :=
  fun n _ => if n = 0 then (.ready v, n) else (.pending, n - 1)

/-- One pass through the `AsyncYielder::async_suspend` loop body: the future
is polled exactly once, then async_suspend either returns the ready value
inline (`inr`, no suspend of the generator) or suspends `None` (`inl`).  The
second component counts the future polls of this activation (structurally one). -/
def asyncSuspendActivation (futPoll : φ → W → Poll R × φ) (st : φ) (w : W) :
    (φ ⊕ R) × Nat :=
  match futPoll st w with
  | (.pending, st2) => (.inl st2, 1)
  | (.ready r, _) => (.inr r, 1)

/-- The user function `|ay| ay.async_suspend(countdownFut v)`, per activation. -/
def countdownClosure (v : R) : Nat → W → Nat ⊕ R :=
  fun n w => (asyncSuspendActivation (countdownFut v) n w).1

/-- A wormhole at machine state `s` over the countdown closure, with no
preserved thread-locals (waker, payload, keys and values all `Nat`). -/
def countdownAt (v : Nat) (b : Bool) (s : WormState Nat) :
    AsyncWormhole (WormState Nat) Nat Nat Nat Nat Nat :=
  { generator := { started := b, stack_ptr := some s, step := wormStep (countdownClosure v) },
    preserved_thread_locals := [] }

/-- The freshly built wormhole whose closure awaits the countdown future with
`k` pendings left. -/
def countdownWormhole (k : Nat) (v : Nat) :
    AsyncWormhole (WormState Nat) Nat Nat Nat Nat Nat :=
  countdownAt v false (.run k)

theorem poll_countdown_run_succ (v : Nat) (b : Bool) (j waker : Nat)
    (m : TlsMap Nat Nat) :
    (countdownAt v b (.run (j + 1))).poll waker m =
      (.ok .pending, countdownAt v true (.run j), m) := rfl

theorem poll_countdown_run_zero (v : Nat) (b : Bool) (waker : Nat)
    (m : TlsMap Nat Nat) :
    (countdownAt v b (.run 0)).poll waker m =
      (.ok (.ready (some v)), countdownAt v true .afterSuspend, m) := rfl

theorem countdown_iter_inv (v waker : Nat) (m : TlsMap Nat Nat) (k : Nat) :
    ∀ i, i ≤ k → ∃ b,
      pollIterState (countdownWormhole k v) waker m i =
        (countdownAt v b (.run (k - i)), m) := by
  intro i
  induction i with
  | zero => intro _; exact ⟨false, rfl⟩
  | succ n ih =>
    intro hik
    obtain ⟨b, hb⟩ := ih (Nat.le_of_succ_le hik)
    refine ⟨true, ?_⟩
    have hsub : k - n = (k - (n + 1)) + 1 := by omega
    show ((pollIterState (countdownWormhole k v) waker m n).1.poll waker
        (pollIterState (countdownWormhole k v) waker m n).2).2 = _
    rw [hb]
    simp only [hsub]
    rw [poll_countdown_run_succ]

/-- Preservation of the finished state across a poll: a wormhole whose
generator is finished polls to pending with the generator still finished. -/
theorem poll_finished_pending [DecidableEq K]
    (w : AsyncWormhole σ W Out P K V) (waker : W) (m : TlsMap K V)
    (h : w.generator.stack_ptr = none) :
    (w.poll waker m).1 = .ok .pending ∧
      ((w.poll waker m).2.1).generator.stack_ptr = none := by
  have hres : w.generator.resume waker = (.ok none, w.generator) := by
    simp [Generator.resume, h]
  constructor <;> simp [AsyncWormhole.poll, hres, h]

theorem prePollMap_not_mem [DecidableEq K] (tls : List (ThreadLocal K V))
    (m : TlsMap K V) (k : K) (h : k ∉ tls.map ThreadLocal.reference) :
    prePollMap tls m k = m k := by
  induction tls generalizing m with
  | nil => rfl
  | cons t rest ih =>
    simp only [List.map_cons, List.mem_cons, not_or] at h
    show prePollMap rest (tlsSet m t.reference t.value) k = m k
    rw [ih _ h.2]
    simp [tlsSet, h.1]

theorem prePollMap_mem [DecidableEq K] (tls : List (ThreadLocal K V))
    (m : TlsMap K V) (t : ThreadLocal K V) (ht : t ∈ tls)
    (hnd : (tls.map ThreadLocal.reference).Nodup) :
    prePollMap tls m t.reference = t.value := by
  induction tls generalizing m with
  | nil => cases ht
  | cons x rest ih =>
    simp only [List.map_cons, List.nodup_cons] at hnd
    rcases List.mem_cons.mp ht with h1 | h2
    · subst h1
      show prePollMap rest (tlsSet m t.reference t.value) t.reference = t.value
      rw [prePollMap_not_mem rest _ _ hnd.1]
      simp [tlsSet]
    · exact ih _ h2 hnd.2

theorem pollIterState_finished [DecidableEq K]
    (w : AsyncWormhole σ W Out P K V) (waker : W) (m : TlsMap K V)
    (h : w.generator.stack_ptr = none) :
    ∀ n, ((pollIterState w waker m n).1).generator.stack_ptr = none := by
  intro n
  induction n with
  | zero => exact h
  | succ n ih =>
    exact (poll_finished_pending (pollIterState w waker m n).1 waker
      (pollIterState w waker m n).2 ih).2

/-- C4: on every poll, first each preserved slot's remembered value is
written into the current worker's slot (for distinct keys, `prePollMap` maps
each slot's reference to its remembered value, and this is the worker map
`poll` leaves behind); then the generator is resumed with the current waker;
if it yields the closure's completed value `Some(Some v)` the poll is
`Ready`; on `None` or `Some(None)` each slot's current worker value is read
back into the remembered cell and the poll is `Pending`; and once the future
has completed (the closure's value was delivered, parking the machine at
`afterSuspend`, after which the generator finishes), every subsequent poll
returns `Pending` forever. -/
theorem c4_poll_contract :
    (∀ (K V : Type) (inst : DecidableEq K) (tls : List (ThreadLocal K V))
        (m : TlsMap K V) (t : ThreadLocal K V), t ∈ tls →
        (tls.map ThreadLocal.reference).Nodup →
        prePollMap tls m t.reference = t.value) ∧
    (∀ (σ W Out P K V : Type) (inst : DecidableEq K)
        (w : AsyncWormhole σ W Out P K V) (waker : W) (m : TlsMap K V),
        (w.poll waker m).2.2 = prePollMap w.preserved_thread_locals m ∧
        (∀ (v : Out) (g2 : Generator σ W (Option Out) P),
            w.generator.resume waker = (.ok (some (some v)), g2) →
            w.poll waker m = (.ok (.ready (some v)), { w with generator := g2 },
              prePollMap w.preserved_thread_locals m)) ∧
        (∀ g2 : Generator σ W (Option Out) P,
            (w.generator.resume waker = (.ok none, g2) ∨
              w.generator.resume waker = (.ok (some none), g2)) →
            w.poll waker m = (.ok .pending,
              { generator := g2,
                preserved_thread_locals := postPollSlots w.preserved_thread_locals
                  (prePollMap w.preserved_thread_locals m) },
              prePollMap w.preserved_thread_locals m))) ∧
    (∀ (σ W Out P K V : Type) (inst : DecidableEq K)
        (w : AsyncWormhole σ W Out P K V) (waker : W) (m : TlsMap K V),
        w.generator.stack_ptr = none →
        ∀ n, pollNth w waker m n = .ok .pending) ∧
    (∀ (τ W Out P K V : Type) (inst : DecidableEq K)
        (fstep : τ → W → τ ⊕ Out) (w : AsyncWormhole (WormState τ) W Out P K V)
        (waker : W) (m : TlsMap K V),
        w.generator.step = wormStep fstep →
        w.generator.stack_ptr = some .afterSuspend →
        (w.poll waker m).1 = .ok .pending ∧
          ((w.poll waker m).2.1).generator.stack_ptr = none) := by
  refine ⟨?_, ?_, ?_, ?_⟩
  · intro K V inst tls m t ht hnd
    exact prePollMap_mem tls m t ht hnd
  · intro σ W Out P K V inst w waker m
    refine ⟨?_, ?_, ?_⟩
    · rcases hres : w.generator.resume waker with ⟨r, g2⟩
      match r with
      | .error p => simp [AsyncWormhole.poll, hres]
      | .ok none => simp [AsyncWormhole.poll, hres]
      | .ok (some none) => simp [AsyncWormhole.poll, hres]
      | .ok (some (some v)) => simp [AsyncWormhole.poll, hres]
    · intro v g2 hres
      simp [AsyncWormhole.poll, hres]
    · intro g2 hres
      rcases hres with hres | hres <;> simp [AsyncWormhole.poll, hres]
  · intro σ W Out P K V inst w waker m h n
    exact (poll_finished_pending (pollIterState w waker m n).1 waker
      (pollIterState w waker m n).2 (pollIterState_finished w waker m h n)).1
  · intro τ W Out P K V inst fstep w waker m hstep hsp
    have hres : w.generator.resume waker =
        (.ok none, { w.generator with started := true, stack_ptr := none }) := by
      simp [Generator.resume, hsp, hstep, coActivate, wormStep]
    constructor <;> simp [AsyncWormhole.poll, hres]

/-- The countdown wormhole after its generator finished, a concrete instance
for the pending-forever part of C4. -/
def finishedCountdownWormhole : AsyncWormhole (WormState Nat) Nat Nat Nat Nat Nat where
  generator := { started := true, stack_ptr := none, step := wormStep (countdownClosure 5) }
  preserved_thread_locals := []

/-- Witness for C4 at concrete inputs: two distinct preserved slots; the
completed countdown wormhole delivering 5 at its first poll; a finished
wormhole polled three more times; and the parked-after-value machine. -/
theorem c4_poll_contract_witness :
    prePollMap [⟨1, 10⟩, ⟨2, 20⟩] (fun _ => 0) (1 : Nat) = (10 : Nat) ∧
    (countdownWormhole 0 5).poll 0 (fun _ => 0) =
      (.ok (.ready (some 5)), countdownAt 5 true .afterSuspend, fun _ => 0) ∧
    pollNth finishedCountdownWormhole 0 (fun _ => 0) 3 = .ok .pending ∧
    ((countdownAt 5 true .afterSuspend).poll 0 (fun _ => 0)).1 = .ok .pending := by
  have h := c4_poll_contract
  refine ⟨h.1 Nat Nat inferInstance [⟨1, 10⟩, ⟨2, 20⟩] (fun _ => 0) ⟨1, 10⟩
      (by simp) (by simp), ?_, ?_, ?_⟩
  · exact (h.2.1 (WormState Nat) Nat Nat Nat Nat Nat inferInstance
      (countdownWormhole 0 5) 0 (fun _ => 0)).2.1 5 _ rfl
  · exact h.2.2.1 (WormState Nat) Nat Nat Nat Nat Nat inferInstance
      finishedCountdownWormhole 0 (fun _ => 0) rfl 3
  · exact ((h.2.2.2 Nat Nat Nat Nat Nat Nat inferInstance (countdownClosure 5)
      (countdownAt 5 true .afterSuspend) 0 (fun _ => 0)) rfl rfl).1

/-- C5: for the wormhole whose closure calls `async_suspend` on a future
that is pending exactly `k` times before resolving to `v`: the first `k`
polls of the outer future are `Pending`, the (k+1)-st completes with the
correct value; `async_suspend` polls the inner future exactly once per outer
poll; and when `k = 0` it returns the value inline, without suspending the
generator at all (`inr`, not `inl`). -/
theorem c5_async_suspend_exactness :
    ∀ (k v waker : Nat) (m : TlsMap Nat Nat),
      (∀ i, i < k → pollNth (countdownWormhole k v) waker m i = .ok .pending) ∧
      pollNth (countdownWormhole k v) waker m k = .ok (.ready (some v)) ∧
      (∀ n w : Nat, (asyncSuspendActivation (countdownFut v) n w).2 = 1) ∧
      (∀ w : Nat, asyncSuspendActivation (countdownFut v) 0 w = (.inr v, 1)) := by
  intro k v waker m
  refine ⟨?_, ?_, ?_, ?_⟩
  · intro i hik
    obtain ⟨b, hb⟩ := countdown_iter_inv v waker m k i (Nat.le_of_lt hik)
    obtain ⟨j, hj⟩ : ∃ j, k - i = j + 1 := ⟨k - i - 1, by omega⟩
    rw [pollNth, hb, hj, poll_countdown_run_succ]
  · obtain ⟨b, hb⟩ := countdown_iter_inv v waker m k k le_rfl
    rw [pollNth, hb]
    simp only [Nat.sub_self]
    rw [poll_countdown_run_zero]
  · intro n w
    cases n <;> rfl
  · intro w
    rfl

/-- Witness for C5 at k = 2, v = 9: polls 0 and 1 pending, poll 2 ready. -/
theorem c5_async_suspend_exactness_witness :
    pollNth (countdownWormhole 2 9) 0 (fun _ => 0) 0 = .ok .pending ∧
    pollNth (countdownWormhole 2 9) 0 (fun _ => 0) 1 = .ok .pending ∧
    pollNth (countdownWormhole 2 9) 0 (fun _ => 0) 2 = .ok (.ready (some 9)) ∧
    asyncSuspendActivation (countdownFut 9) 0 (5 : Nat) = (.inr 9, 1) := by
  have h := c5_async_suspend_exactness 2 9 0 (fun _ => 0)
  exact ⟨h.1 0 (by omega), h.1 1 (by omega), h.2.1, h.2.2.2 5⟩

/-!
## Stack presets (src/switcheroo/src/stack/eight_mb.rs, one_mb.rs)

Addresses are embedded as natural numbers; `b` is the base address returned
by `mmap` / `VirtualAlloc`.  The Unix `deallocation` method panics
("Not used on unix") and is embedded as `Option Nat` returning `none`.
-/

def pageSize : Nat := 4096

def EIGHT_MB : Nat := 8 * 1024 * 1024

def ONE_MB : Nat := 1 * 1024 * 1024 + 4096

def EXCEPTION_ZONE : Nat := 4 * 4096

namespace EightMbStack

def unixTop (b : Nat) : Nat := b

def unixBottom (b : Nat) : Nat := b + EIGHT_MB

/-- `fn deallocation` on Unix: `panic!("Not used on unix")`. -/
def unixDeallocation (_b : Nat) : Option Nat := none

def winTop (b : Nat) : Nat := b + EXCEPTION_ZONE

def winBottom (b : Nat) : Nat := b + EIGHT_MB + EXCEPTION_ZONE

def winDeallocation (b : Nat) : Nat := b

end EightMbStack

namespace OneMbStack

def unixTop (b : Nat) : Nat := b

def unixBottom (b : Nat) : Nat := b + ONE_MB

/-- `fn deallocation` on Unix: `panic!("Not used on unix")`. -/
def unixDeallocation (_b : Nat) : Option Nat := none

def winTop (b : Nat) : Nat := b + EXCEPTION_ZONE

def winBottom (b : Nat) : Nat := b + ONE_MB + EXCEPTION_ZONE

def winDeallocation (b : Nat) : Nat := b

end OneMbStack

/-- C6 counterexample: on Unix the `deallocation` accessor does not return
`top` (it panics, embedded `none`), so `deallocation(S) == top(S)` fails for
the eight-megabyte preset at base address 4096. -/
theorem c6_counterexample :
    ¬ (EightMbStack.unixDeallocation 4096 = some (EightMbStack.unixTop 4096)) := by
  decide

/-- C6 amended: for both presets, `top < bottom` and `bottom − top` is a
positive multiple of the page size on both platforms; on Windows
`deallocation ≤ top < bottom` with a reserved region of exactly four pages
between `deallocation` and `top`; on Unix the `deallocation` accessor panics
(embedded `none`) instead of coinciding with `top`. -/
theorem c6_stack_invariants :
    ∀ b : Nat,
      (EightMbStack.unixTop b < EightMbStack.unixBottom b ∧
        0 < EightMbStack.unixBottom b - EightMbStack.unixTop b ∧
        (EightMbStack.unixBottom b - EightMbStack.unixTop b) % pageSize = 0 ∧
        EightMbStack.unixDeallocation b = none) ∧
      (EightMbStack.winDeallocation b ≤ EightMbStack.winTop b ∧
        EightMbStack.winTop b < EightMbStack.winBottom b ∧
        0 < EightMbStack.winBottom b - EightMbStack.winTop b ∧
        (EightMbStack.winBottom b - EightMbStack.winTop b) % pageSize = 0 ∧
        EightMbStack.winTop b - EightMbStack.winDeallocation b = 4 * pageSize) ∧
      (OneMbStack.unixTop b < OneMbStack.unixBottom b ∧
        0 < OneMbStack.unixBottom b - OneMbStack.unixTop b ∧
        (OneMbStack.unixBottom b - OneMbStack.unixTop b) % pageSize = 0 ∧
        OneMbStack.unixDeallocation b = none) ∧
      (OneMbStack.winDeallocation b ≤ OneMbStack.winTop b ∧
        OneMbStack.winTop b < OneMbStack.winBottom b ∧
        0 < OneMbStack.winBottom b - OneMbStack.winTop b ∧
        (OneMbStack.winBottom b - OneMbStack.winTop b) % pageSize = 0 ∧
        OneMbStack.winTop b - OneMbStack.winDeallocation b = 4 * pageSize) := by
  intro b
  refine ⟨⟨?_, ?_, ?_, rfl⟩, ⟨?_, ?_, ?_, ?_, ?_⟩, ⟨?_, ?_, ?_, rfl⟩, ⟨?_, ?_, ?_, ?_, ?_⟩⟩ <;>
    simp [EightMbStack.unixTop, EightMbStack.unixBottom, EightMbStack.winTop,
      EightMbStack.winBottom, EightMbStack.winDeallocation, OneMbStack.unixTop,
      OneMbStack.unixBottom, OneMbStack.winTop, OneMbStack.winBottom,
      OneMbStack.winDeallocation, EIGHT_MB, ONE_MB, EXCEPTION_ZONE, pageSize] <;>
    omega

/-!
## PreAllocatedStack (src/stackpp/src/pre_allocated_stack/unix.rs)

The guarded growable stack: a usable area from `top` (inclusive) up to
`bottom`, and a guarded area from `guard_top` up to `top`.  The OS calls
(`mmap`, `mprotect`) are modelled as succeeding; `base` stands for the
address `mmap` returned.
-/

structure PreAllocatedStack where
  guard_top : Nat
  top : Nat
  bottom : Nat
deriving DecidableEq

namespace PreAllocatedStack

/-- `stackpp` page size. -/
def page_size : Nat := 4096

/-- `extend_usable(top, size)`: marks `[top − size, top)` read/write and
returns the lowered `top` (the `mprotect` call is modelled as succeeding). -/
def extend_usable (top size : Nat) : Nat := top - size

/-- `PreAllocatedStack::new(total_size)`: reserves `total_size` plus one
extra page, places `bottom` at the end of the reservation and makes exactly
one page usable. -/
def new (base total_size : Nat) : PreAllocatedStack :=
  let total_size2 := total_size + page_size
  let guard_top := base
  let bottom := guard_top + total_size2
  let top := extend_usable bottom page_size
  ⟨guard_top, top, bottom⟩

/-- `stack_pointer_inside_guard`: `guard_top <= sp && sp < top`. -/
def stack_pointer_inside_guard (s : PreAllocatedStack) (sp : Nat) : Bool :=
  decide (s.guard_top ≤ sp) && decide (sp < s.top)

/-- `grow`: doubles the usable stack size if possible, otherwise reports
"Stack maximum reached". -/
def grow (s : PreAllocatedStack) : Except String PreAllocatedStack :=
  let usable_size := s.bottom - s.top
  let total_size := s.bottom - s.guard_top
  if 2 * usable_size > total_size then
    .error "Stack maximum reached"
  else
    .ok { s with top := extend_usable s.top usable_size }

/-- Signal number for SIGSEGV. -/
def SIGSEGV : Nat := 11

/-- Signal number for SIGBUS on Darwin. -/
def SIGBUS_darwin : Nat := 10

/-- The signal a guard-page access raises: SIGBUS on Darwin, SIGSEGV
elsewhere. -/
def expected_guard_page_signal (macos : Bool) : Nat :=
  if macos then SIGBUS_darwin else SIGSEGV

/-- `PreAllocatedStack::signal_handler`.  `cur` is the stack found in the
thread-local CURRENT_STACK slot; returns whether the fault was handled plus
the stack given back to the slot. -/
def signal_handler (macos : Bool) (signum si_addr : Nat)
    (cur : PreAllocatedStack) : Bool × PreAllocatedStack :=
  if signum ≠ expected_guard_page_signal macos then (false, cur)
  else if cur.stack_pointer_inside_guard si_addr then
    match cur.grow with
    | .ok s2 => (true, s2)
    | .error _ => (false, cur)
  else (false, cur)

end PreAllocatedStack

theorem inside_guard_iff (s : PreAllocatedStack) (sp : Nat) :
    s.stack_pointer_inside_guard sp = true ↔ (s.guard_top ≤ sp ∧ sp < s.top) := by
  simp [PreAllocatedStack.stack_pointer_inside_guard]

theorem grow_ok_iff (s : PreAllocatedStack) :
    (∃ s2, s.grow = .ok s2) ↔
      2 * (s.bottom - s.top) ≤ s.bottom - s.guard_top := by
  unfold PreAllocatedStack.grow
  by_cases h : 2 * (s.bottom - s.top) > s.bottom - s.guard_top <;> simp [h] <;> omega

theorem grow_ok_eq (s s2 : PreAllocatedStack) (h : s.grow = .ok s2) :
    s2 = ⟨s.guard_top, s.top - (s.bottom - s.top), s.bottom⟩ ∧
      2 * (s.bottom - s.top) ≤ s.bottom - s.guard_top := by
  unfold PreAllocatedStack.grow at h
  by_cases hc : 2 * (s.bottom - s.top) > s.bottom - s.guard_top
  · simp [hc] at h
  · simp [hc] at h
    exact ⟨h.symm, by omega⟩

/-- C7: the stack-growth signal handler reports handled exactly when the
signal is the platform's guard-page signal (SIGBUS on Darwin, SIGSEGV
elsewhere), the faulting address lies in the guard range
`[guard_top, top)`, and growing succeeds — which happens exactly when the
doubled usable region still fits in the total reservation; on success the
usable region is exactly doubled; otherwise the handler reports not handled
and gives the stack back unchanged. -/
theorem c7_signal_handler_contract :
    ∀ (macos : Bool) (signum si_addr : Nat) (cur : PreAllocatedStack),
      cur.guard_top ≤ cur.top → cur.top ≤ cur.bottom →
      (((PreAllocatedStack.signal_handler macos signum si_addr cur).1 = true) ↔
        (signum = PreAllocatedStack.expected_guard_page_signal macos ∧
          cur.guard_top ≤ si_addr ∧ si_addr < cur.top ∧
          2 * (cur.bottom - cur.top) ≤ cur.bottom - cur.guard_top)) ∧
      ((PreAllocatedStack.signal_handler macos signum si_addr cur).1 = true →
        (PreAllocatedStack.signal_handler macos signum si_addr cur).2.bottom -
            (PreAllocatedStack.signal_handler macos signum si_addr cur).2.top =
          2 * (cur.bottom - cur.top)) ∧
      ((PreAllocatedStack.signal_handler macos signum si_addr cur).1 = false →
        (PreAllocatedStack.signal_handler macos signum si_addr cur).2 = cur) := by
  intro macos signum si_addr cur h1 h2
  by_cases hs : signum = PreAllocatedStack.expected_guard_page_signal macos
  · by_cases hin : cur.guard_top ≤ si_addr ∧ si_addr < cur.top
    · have hinb : cur.stack_pointer_inside_guard si_addr = true :=
        (inside_guard_iff cur si_addr).mpr hin
      rcases hg : cur.grow with e | s2
      · have hif : PreAllocatedStack.signal_handler macos signum si_addr cur =
            (false, cur) := by
          unfold PreAllocatedStack.signal_handler
          rw [if_neg (not_not_intro hs), if_pos hinb, hg]
        have hiff : ¬ (2 * (cur.bottom - cur.top) ≤ cur.bottom - cur.guard_top) := by
          intro hle
          obtain ⟨s2, hs2⟩ := (grow_ok_iff cur).mpr hle
          rw [hg] at hs2
          cases hs2
        rw [hif]
        refine ⟨?_, by simp, fun _ => rfl⟩
        simp only [Bool.false_eq_true, false_iff]
        intro hcon
        exact hiff hcon.2.2.2
      · have hge := grow_ok_eq cur s2 hg
        have hif : PreAllocatedStack.signal_handler macos signum si_addr cur =
            (true, s2) := by
          unfold PreAllocatedStack.signal_handler
          rw [if_neg (not_not_intro hs), if_pos hinb, hg]
        rw [hif]
        refine ⟨iff_of_true rfl ⟨hs, hin.1, hin.2, hge.2⟩, ?_, by simp⟩
        intro _
        have h3 := hge.2
        rw [hge.1]
        show cur.bottom - (cur.top - (cur.bottom - cur.top)) = 2 * (cur.bottom - cur.top)
        omega
    · have hinb : ¬ (cur.stack_pointer_inside_guard si_addr = true) := by
        rw [inside_guard_iff]
        exact hin
      have hif : PreAllocatedStack.signal_handler macos signum si_addr cur =
          (false, cur) := by
        unfold PreAllocatedStack.signal_handler
        rw [if_neg (not_not_intro hs), if_neg hinb]
      rw [hif]
      refine ⟨?_, by simp, fun _ => rfl⟩
      simp only [Bool.false_eq_true, false_iff]
      intro hcon
      exact hin ⟨hcon.2.1, hcon.2.2.1⟩
  · have hif : PreAllocatedStack.signal_handler macos signum si_addr cur =
        (false, cur) := by
      unfold PreAllocatedStack.signal_handler
      rw [if_pos hs]
    rw [hif]
    refine ⟨?_, by simp, fun _ => rfl⟩
    simp only [Bool.false_eq_true, false_iff]
    intro hcon
    exact hs hcon.1

/-- Witness for C7: a stack with one usable page and one guarded page grows
on a SIGSEGV whose faulting address lies in the guard page. -/
theorem c7_signal_handler_contract_witness :
    (PreAllocatedStack.signal_handler false 11 4100
        ⟨0, 8192, 12288⟩).1 = true ∧
    (PreAllocatedStack.signal_handler false 11 4100 ⟨0, 8192, 12288⟩).2.bottom -
        (PreAllocatedStack.signal_handler false 11 4100 ⟨0, 8192, 12288⟩).2.top =
      2 * ((12288 : Nat) - 8192) := by
  have h := c7_signal_handler_contract false 11 4100 ⟨0, 8192, 12288⟩
    (by decide) (by decide)
  have ht : (PreAllocatedStack.signal_handler false 11 4100
      ⟨0, 8192, 12288⟩).1 = true := by
    exact h.1.mpr ⟨by decide, by decide, by decide, by decide⟩
  exact ⟨ht, h.2.1 ht⟩

/-- C10 counterexample: with the documented input `total_size = 4096`
(4 KB · 2^0), construction satisfies `guard_top < top ≤ bottom`, but one
successful `grow` moves `top` down onto `guard_top`, so the strict invariant
is not preserved and no guarded page remains. -/
theorem c10_counterexample :
    PreAllocatedStack.new 0 4096 =
      ({ guard_top := 0, top := 4096, bottom := 8192 } : PreAllocatedStack) ∧
    PreAllocatedStack.grow ⟨0, 4096, 8192⟩ =
      .ok ({ guard_top := 0, top := 0, bottom := 8192 } : PreAllocatedStack) ∧
    ¬ (({ guard_top := 0, top := 0, bottom := 8192 } :
        PreAllocatedStack).guard_top <
      ({ guard_top := 0, top := 0, bottom := 8192 } : PreAllocatedStack).top) := by
  refine ⟨rfl, ?_, by decide⟩
  unfold PreAllocatedStack.grow
  simp [PreAllocatedStack.extend_usable]

/-- C10 amended: `new(total_size)` reserves `total_size` plus one extra page
and makes exactly one page usable, giving `guard_top ≤ top ≤ bottom` (strict
`guard_top < top` whenever `total_size > 0`); `grow` succeeds exactly when
the doubled usable size still fits within the total reservation, and it
preserves the weak invariant `guard_top ≤ top ≤ bottom` — but it may consume
the last guarded page, leaving `guard_top = top`, so the strict invariant is
not always preserved. -/
theorem c10_guard_invariant :
    (∀ base total_size : Nat,
        (PreAllocatedStack.new base total_size).guard_top ≤
            (PreAllocatedStack.new base total_size).top ∧
        (PreAllocatedStack.new base total_size).top ≤
            (PreAllocatedStack.new base total_size).bottom ∧
        (PreAllocatedStack.new base total_size).bottom -
            (PreAllocatedStack.new base total_size).top =
          PreAllocatedStack.page_size ∧
        (PreAllocatedStack.new base total_size).bottom -
            (PreAllocatedStack.new base total_size).guard_top =
          total_size + PreAllocatedStack.page_size ∧
        (0 < total_size →
          (PreAllocatedStack.new base total_size).guard_top <
            (PreAllocatedStack.new base total_size).top)) ∧
    (∀ s s2 : PreAllocatedStack, s.guard_top ≤ s.top → s.top ≤ s.bottom →
        s.grow = .ok s2 →
        s2.guard_top ≤ s2.top ∧ s2.top ≤ s2.bottom) ∧
    (∀ s : PreAllocatedStack,
        (∃ s2, s.grow = .ok s2) ↔
          2 * (s.bottom - s.top) ≤ s.bottom - s.guard_top) := by
  refine ⟨?_, ?_, ?_⟩
  · intro base total_size
    simp only [PreAllocatedStack.new, PreAllocatedStack.extend_usable,
      PreAllocatedStack.page_size]
    omega
  · intro s s2 h1 h2 hg
    have hge := grow_ok_eq s s2 hg
    rw [hge.1]
    have := hge.2
    constructor <;> simp <;> omega
  · exact grow_ok_iff

/-- Witness for C10 at concrete inputs: a fresh two-page stack and its first
grow. -/
theorem c10_guard_invariant_witness :
    ((PreAllocatedStack.new 0 8192).guard_top <
      (PreAllocatedStack.new 0 8192).top) ∧
    (({ guard_top := 0, top := 8192, bottom := 12288 } :
        PreAllocatedStack).grow =
      .ok ({ guard_top := 0, top := 4096, bottom := 12288 } :
        PreAllocatedStack)) ∧
    (0 : Nat) ≤ 4096 ∧ (4096 : Nat) ≤ 12288 := by
  have h := c10_guard_invariant
  refine ⟨(h.1 0 8192).2.2.2.2 (by omega), ?_, ?_⟩
  · unfold PreAllocatedStack.grow
    simp [PreAllocatedStack.extend_usable]
  · have hg : ({ guard_top := 0, top := 8192, bottom := 12288 } :
        PreAllocatedStack).grow =
        .ok ({ guard_top := 0, top := 4096, bottom := 12288 } :
          PreAllocatedStack) := by
      unfold PreAllocatedStack.grow
      simp [PreAllocatedStack.extend_usable]
    exact (h.2.1 _ _ (by decide) (by decide) hg)

/-!
## Stack pool (src/src/pool.rs)

Stacks are identified by their stable base address (a natural number).  The
crossbeam `ArrayQueue` is a bounded FIFO queue: `pop` takes the head,
`push` appends at the tail and fails (dropping the value) when the queue
holds `capacity` elements.  `recycle` extracts the wormhole's stack and
pushes it; `with_tls` pops a pooled stack or, when the pool is empty,
allocates a fresh one (`fresh` is the address the fresh `OneMbStack::new`
would return). -/

structure OneMbAsyncPool where
  capacity : Nat
  queue : List Nat
deriving DecidableEq

/-- `OneMbAsyncPool::with_tls`: pop a pooled stack, or allocate a fresh one
when the pool is empty; returns the stack used by the new wormhole and the
updated pool. -/
def with_tls (p : OneMbAsyncPool) (fresh : Nat) : Nat × OneMbAsyncPool :=
  match p.queue with
  | [] => (fresh, p)
  | s :: rest => (s, { p with queue := rest })

/-- `OneMbAsyncPool::recycle`: push the wormhole's stack back; if the push is
over capacity the stack is just dropped. -/
def recycle (p : OneMbAsyncPool) (s : Nat) : OneMbAsyncPool :=
  if p.queue.length < p.capacity then { p with queue := p.queue ++ [s] } else p

/-- C9 counterexample: a pool with capacity 2 holding stack 7 is below
capacity, yet after recycling stack 9 the next acquisition returns the older
pooled stack 7, not the just-recycled 9. -/
theorem c9_counterexample :
    (⟨2, [7]⟩ : OneMbAsyncPool).queue.length < (⟨2, [7]⟩ : OneMbAsyncPool).capacity ∧
    (with_tls (recycle ⟨2, [7]⟩ 9) 100).1 = 7 ∧ (7 : Nat) ≠ 9 := by
  decide

/-- C9 amended: recycling into a pool below capacity followed by the next
acquisition reuses a pooled stack, never a fresh allocation — the head of the
queue after the push, which is the recycled stack itself exactly when the
pool was empty before the recycle (the queue is FIFO); recycling into a pool
at capacity leaves the pool unchanged (the stack is dropped). -/
theorem c9_pool_recycling :
    (∀ (p : OneMbAsyncPool) (s fresh : Nat), p.queue.length < p.capacity →
        (p.queue = [] →
          with_tls (recycle p s) fresh = (s, { p with queue := [] })) ∧
        (∀ x rest, p.queue = x :: rest →
          with_tls (recycle p s) fresh = (x, { p with queue := rest ++ [s] }))) ∧
    (∀ (p : OneMbAsyncPool) (s : Nat), ¬ p.queue.length < p.capacity →
        recycle p s = p) := by
  constructor
  · intro p s fresh hcap
    constructor
    · intro hq
      rw [hq] at hcap
      simp only [List.length_nil] at hcap
      simp [recycle, with_tls, hq, hcap]
    · intro x rest hq
      rw [hq] at hcap
      simp only [List.length_cons] at hcap
      simp [recycle, with_tls, hq, hcap]
  · intro p s hcap
    simp [recycle, hcap]

/-- Witness for C9 at concrete pools: empty below capacity, nonempty below
capacity, and at capacity. -/
theorem c9_pool_recycling_witness :
    with_tls (recycle ⟨2, []⟩ 9) 100 = ((9 : Nat), (⟨2, []⟩ : OneMbAsyncPool)) ∧
    with_tls (recycle ⟨2, [7]⟩ 9) 100 = ((7 : Nat), (⟨2, [9]⟩ : OneMbAsyncPool)) ∧
    recycle ⟨1, [7]⟩ 9 = (⟨1, [7]⟩ : OneMbAsyncPool) := by
  have h := c9_pool_recycling
  refine ⟨(h.1 ⟨2, []⟩ 9 100 (by decide)).1 rfl, ?_, h.2 ⟨1, [7]⟩ 9 (by decide)⟩
  have h2 := (h.1 ⟨2, [7]⟩ 9 100 (by decide)).2 7 [] rfl
  simpa using h2

/-!
## Context-switch layer (src/switcheroo/src/arch/unix_x64.rs,
unix_aarch64.rs, windows_x64.rs)

`init` pushes a sequence of 8-byte words onto the fresh stack, starting at
`stack.bottom()`; the i-th pushed word lives at address `bottom − 8·(i+1)`.
One of the pushed words is the CFA placeholder `0xdeaddeaddead0cfa`, the call
frame anchor slot that `swap_and_link_stacks` later overwrites with the
current stack pointer (`Generator::new` passes `stack.bottom()` as the
anchor). -/

/-- The kinds of words each port's `init` pushes. -/
inductive InitWord where
  | alignZero
  | funcPtr
  | tramp1Ret
  | cfaPlaceholder
  | trampCall
  | framePtr
  | rbxZero
  | stackBase
  | stackLimit
  | deallocStack
deriving DecidableEq

/-- Bytes per pushed word on all three 64-bit ports. -/
def wordSize : Nat := 8

/-- Byte offset below the stack bottom of the CFA placeholder pushed by
`init`, given the push sequence (first pushed word first). -/
def cfaSlotOffset (ws : List InitWord) : Option Nat :=
  (ws.findIdx? (fun w => w = .cfaPlaceholder)).map (fun i => wordSize * (i + 1))

namespace unix_x64

/-- Push sequence of `init`: alignment zero, `generator_wrapper`, the return
address into `trampoline_1`, the CFA placeholder, the call into
`trampoline_2`, and the frame pointer. -/
def initWords : List InitWord :=
  [.alignZero, .funcPtr, .tramp1Ret, .cfaPlaceholder, .trampCall, .framePtr]

/-- `swap_and_link_stacks` links stacks with `mov [rcx - 32], rsp`: the
anchor slot is 32 bytes below the passed anchor pointer. -/
def linkOffset : Nat := 32

/-- Bytes `swap_and_link_stacks` pushes before the link write: the
continuation address and `rbp` (a frame-pointer pair). -/
def swapSavedBytes : Nat := 16

end unix_x64

namespace unix_aarch64

/-- Push sequence of `init` (same shape as Unix x86-64). -/
def initWords : List InitWord :=
  [.alignZero, .funcPtr, .tramp1Ret, .cfaPlaceholder, .trampCall, .framePtr]

/-- `str x1, [x3, #-32]`: the anchor slot is 32 bytes below the anchor. -/
def linkOffset : Nat := 32

/-- `stp x29, x30, [sp, #-16]!`: a frame-pointer pair, 16 bytes. -/
def swapSavedBytes : Nat := 16

end unix_aarch64

namespace windows_x64

/-- Push sequence of `init`: `generator_wrapper`, the CFA placeholder, the
call into `trampoline`, the frame pointer, the `rbx` starting value, and the
three thread-information-block words (stack base, stack limit, deallocation
stack). -/
def initWords : List InitWord :=
  [.funcPtr, .cfaPlaceholder, .trampCall, .framePtr, .rbxZero,
   .stackBase, .stackLimit, .deallocStack]

/-- `mov [rdi - 16], rsp`: the anchor slot is 16 bytes below the anchor. -/
def linkOffset : Nat := 16

/-- `swap_and_link_stacks` pushes the continuation address, `rbp`, `rbx` and
the three thread-information-block words: 48 bytes. -/
def swapSavedBytes : Nat := 48

end windows_x64

/-- Modelled from the spec sentence of C8 (a second definition following the
spec's words, for comparison with the code): the spec claims K is 16 bytes on
64-bit little-endian platforms whose switch saves a frame-pointer pair
(16 saved bytes), and 32 bytes on architectures with a larger callee-saved
footprint. -/
def specSwapAndLinkOffset (calleeSavedBytes : Nat) : Nat :=
  if calleeSavedBytes ≤ 16 then 16 else 32

/-- C8 counterexample: on Unix x86-64 the switch saves exactly a
frame-pointer pair, so the spec predicts K = 16, but the code writes the
anchor slot at `sp_anchor − 32`.  (Windows x86-64 has the larger footprint
and the spec predicts 32, but the code uses 16.) -/
theorem c8_counterexample :
    specSwapAndLinkOffset unix_x64.swapSavedBytes = 16 ∧
    unix_x64.linkOffset = 32 ∧
    specSwapAndLinkOffset windows_x64.swapSavedBytes = 32 ∧
    windows_x64.linkOffset = 16 ∧
    ¬ (specSwapAndLinkOffset unix_x64.swapSavedBytes = unix_x64.linkOffset) := by
  decide

/-- C8 amended: on every port, `swap_and_link_stacks` writes the current
stack pointer into the fixed anchor slot at `sp_anchor − K` where K is
exactly the offset at which that port's `init` placed the CFA placeholder
below the stack bottom (the anchor passed by `Generator::new`): K = 32 bytes
on Unix x86-64 and Unix AArch64, and K = 16 bytes on Windows x86-64 — not
16 for the frame-pointer-pair ports and 32 for the larger-footprint port as
the spec's rule predicts. -/
theorem c8_anchor_slot :
    cfaSlotOffset unix_x64.initWords = some unix_x64.linkOffset ∧
    cfaSlotOffset unix_aarch64.initWords = some unix_aarch64.linkOffset ∧
    cfaSlotOffset windows_x64.initWords = some windows_x64.linkOffset ∧
    unix_x64.linkOffset = 32 ∧ unix_aarch64.linkOffset = 32 ∧
    windows_x64.linkOffset = 16 ∧
    (∀ bottom : Nat, bottom - unix_x64.linkOffset =
      bottom - wordSize * (3 + 1)) := by
  refine ⟨by decide, by decide, by decide, rfl, rfl, rfl, fun bottom => rfl⟩

end AW
